import Mathlib

/-!
Verification development for a single-domain breadth-first web crawler
with product extraction (`src/main.rs` of rust-mini-webcrawler).

The crawler's own logic is embedded shallowly and faithfully:

* the DOM and CSS-selector matching of the `scraper` crate are modelled by
  the `Node` tree and the `Selector` data below; `scraper`'s `select` is a
  preorder traversal of the descendants filtered by the selector, which is
  exactly how it is defined here;
* the external collaborators (`reqwest` HTTP fetch, `html5ever` parsing,
  the `url` crate's join) are oracles carried in an `Env` record: the
  repository's control flow is proved correct for every behaviour of the
  collaborators;
* the CSV writer is modelled as the list of rows written so far, and the
  console output as a list of log lines;
* the crawl loop of `crawl_and_extract` is a step function `crawlStep`
  iterated with fuel (`crawlLoop`); theorems about terminated crawls are
  conditioned on the loop having returned within its fuel.

Machine integers do not occur in the relevant code paths (`max_pages` is a
`usize` used only for comparisons and counting, so `Nat` is an exact model
for the reachable range).
-/

namespace Crawler

/-- Model of `url::Url` as the crawler observes it: its string form
(`as_str`/`to_string`, which coincide for `Url`) and its `domain()`,
which is `None` when the host is an IP address or the URL has no host
(e.g. `mailto:`). -/
structure Url where
  as_str : String
  domain : Option String
deriving DecidableEq, Repr

/-- The `Product` struct of `src/main.rs` (serde serializes its fields in
declaration order: url, name, price). -/
structure Product where
  url : String
  name : String
  price : String
deriving DecidableEq, Repr

/-- A parsed HTML document node (model of the `scraper`/`ego-tree` DOM):
an element with tag, attributes and children, or a text node. -/
inductive Node where
  | elem (tag : String) (attrs : List (String × String)) (children : List Node)
  | text (s : String)
deriving Repr

def attrsOf : Node → List (String × String)
  | Node.elem _ attrs _ => attrs
  | Node.text _ => []

def childrenOf : Node → List Node
  | Node.elem _ _ children => children
  | Node.text _ => []

/-- `element.value().attr(name)`: the value of the first attribute with the
given name. -/
def attrVal (attrs : List (String × String)) (name : String) : Option String :=
  (attrs.find? (fun p => p.1 == name)).map (fun p => p.2)

/-- Drop leading whitespace characters. -/
def dropWs : List Char → List Char
  | [] => []
  | c :: cs => if c.isWhitespace then dropWs cs else c :: cs

/-- Model of Rust's `str::trim`: remove leading and trailing whitespace.
(Defined by structural recursion on the character list so that it
evaluates inside the kernel.) -/
def trimStr (s : String) : String :=
  String.mk (dropWs ((dropWs s.data.reverse).reverse))

/-- Split on whitespace characters (the pieces between them, empties
included). -/
def splitWs : List Char → List Char → List String
  | [], acc => [String.mk acc.reverse]
  | c :: cs, acc =>
    if c.isWhitespace then String.mk acc.reverse :: splitWs cs []
    else splitWs cs (c :: acc)

/-- The whitespace-separated tokens of a `class` attribute value. -/
def classTokens (v : String) : List String :=
  (splitWs v.data []).filter (fun t => t != "")

/-- One attribute condition of a CSS simple selector: `[name]` or
`[name=value]`. -/
inductive AttrCond where
  | present (name : String)
  | valEq (name value : String)
deriving DecidableEq, Repr

/-- A CSS simple (compound) selector: optional tag name, class requirements,
attribute conditions.  The selectors in `src/main.rs` use no other feature. -/
structure SimpleSel where
  tag : Option String
  classes : List String
  conds : List AttrCond
deriving DecidableEq, Repr

/-- A CSS complex selector `A B ... S`: the subject `S` plus the list of
ancestor selectors (innermost first) that some chain of proper ancestors
must match (descendant combinator). -/
structure ComplexSel where
  ancs : List SimpleSel
  subject : SimpleSel
deriving DecidableEq, Repr

/-- A CSS selector list (comma-separated alternatives), as produced by
`Selector::parse`: an element matches if it matches any alternative. -/
abbrev Selector := List ComplexSel

def matchesCond (attrs : List (String × String)) : AttrCond → Bool
  | AttrCond.present n => (attrVal attrs n).isSome
  | AttrCond.valEq n v => attrVal attrs n == some v

def matchesSimple (s : SimpleSel) : Node → Bool
  | Node.text _ => false
  | Node.elem tag attrs _ =>
    (match s.tag with
     | none => true
     | some t => t == tag) &&
    s.classes.all (fun c =>
      ((attrVal attrs "class").map (fun v => (classTokens v).contains c)).getD false) &&
    s.conds.all (matchesCond attrs)

/-- Does some (not necessarily contiguous) chain inside the ancestor list
(innermost first) match the ancestor selectors (innermost first)?  This is
CSS descendant-combinator semantics. -/
def ancChain : List SimpleSel → List Node → Bool
  | [], _ => true
  | _ :: _, [] => false
  | s :: ss, a :: ancs => (matchesSimple s a && ancChain ss ancs) || ancChain (s :: ss) ancs

def matchesComplex (c : ComplexSel) (n : Node) (ancs : List Node) : Bool :=
  matchesSimple c.subject n && ancChain c.ancs ancs

def matchesSelector (sel : Selector) (n : Node) (ancs : List Node) : Bool :=
  sel.any (fun c => matchesComplex c n ancs)

mutual

/-- The element `n` together with all element descendants of `n`, in
document (preorder) order, each paired with its ancestor chain (innermost
first); `ancs` is the ancestor chain of `n` itself. -/
def descendants (ancs : List Node) : Node → List (Node × List Node)
  | Node.text _ => []
  | Node.elem tag attrs children =>
    (Node.elem tag attrs children, ancs) ::
      descendantsList (Node.elem tag attrs children :: ancs) children

def descendantsList (ancs : List Node) : List Node → List (Node × List Node)
  | [] => []
  | n :: ns => descendants ancs n ++ descendantsList ancs ns

end

mutual

/-- `ElementRef::text(...).collect::<String>()`: the concatenation of all
text-node descendants in document order. -/
def textOf : Node → String
  | Node.text s => s
  | Node.elem _ _ children => textOfList children

def textOfList : List Node → String
  | [] => ""
  | n :: ns => textOf n ++ textOfList ns

end

/-- `Html::select(selector)` (as used on `Html::parse_document` output):
every element of the tree, the root included, matching the selector, in
document order.  In `scraper` this is a full traversal filtered by
`Selector::matches`, which is how it is defined here. -/
def selectDoc (sel : Selector) (ancs : List Node) (root : Node) : List (Node × List Node) :=
  (descendants ancs root).filter (fun p => matchesSelector sel p.1 p.2)

/-- `ElementRef::select(selector)`: the proper descendants of the element
matching the selector, in document order (scraper skips the element
itself).  Matching sees the element's real ancestor chain `ancs`. -/
def selectIn (sel : Selector) (tile : Node) (ancs : List Node) : List (Node × List Node) :=
  (descendantsList (tile :: ancs) (childrenOf tile)).filter
    (fun p => matchesSelector sel p.1 p.2)

/-- `Selector::parse("div[data-item-id], div[data-automation-id='productTile']")`
— the product-tile selector of `extract_products` (line 146). -/
def product_selector : Selector :=
  [ { ancs := [], subject := { tag := some "div", classes := [], conds := [AttrCond.present "data-item-id"] } },
    { ancs := [], subject := { tag := some "div", classes := [], conds := [AttrCond.valEq "data-automation-id" "productTile"] } } ]

/-- `Selector::parse("[data-automation-id='product-title'], a[aria-label],
div[data-automation-id='product-title-link']")` — the name selector list
(line 150). -/
def name_selector : Selector :=
  [ { ancs := [], subject := { tag := none, classes := [], conds := [AttrCond.valEq "data-automation-id" "product-title"] } },
    { ancs := [], subject := { tag := some "a", classes := [], conds := [AttrCond.present "aria-label"] } },
    { ancs := [], subject := { tag := some "div", classes := [], conds := [AttrCond.valEq "data-automation-id" "product-title-link"] } } ]

/-- `Selector::parse("[data-automation-id='product-price'],
span[aria-hidden='true'], div.price-main span")` — the price selector list
(line 154). -/
def price_selector : Selector :=
  [ { ancs := [], subject := { tag := none, classes := [], conds := [AttrCond.valEq "data-automation-id" "product-price"] } },
    { ancs := [], subject := { tag := some "span", classes := [], conds := [AttrCond.valEq "aria-hidden" "true"] } },
    { ancs := [{ tag := some "div", classes := ["price-main"], conds := [] }], subject := { tag := some "span", classes := [], conds := [] } } ]

/-- `Selector::parse("a")` — used both for link discovery (line 54) and for
the product URL (line 159). -/
def link_selector : Selector :=
  [ { ancs := [], subject := { tag := some "a", classes := [], conds := [] } } ]

/-- The name / price computation of `extract_products` (lines 162-176):
`tile.select(sel).next().map(|e| e.text().collect::<String>())
.map(|s| s.trim().to_string()).unwrap_or_default()`. -/
def fieldText (sel : Selector) (tile : Node) (ancs : List Node) : String :=
  ((((selectIn sel tile ancs).head?).map (fun p => textOf p.1)).map
    (fun s => trimStr s)).getD ""

/-- The product-URL computation of `extract_products` (lines 183-189):
first `a` inside the tile, its `href`, joined against the page URL, with
the page URL itself as fallback.  `join` is the `url` crate's
`Url::join(..).ok()`, passed as an oracle. -/
def productUrlOf (join : Url → String → Option Url) (page_url : Url)
    (tile : Node) (ancs : List Node) : String :=
  (((((selectIn link_selector tile ancs).head?.bind
        (fun a => attrVal (attrsOf a.1) "href")).bind
      (fun href => join page_url href)).map
    (fun u => u.as_str)).getD page_url.as_str)

/-- The record `extract_products` serializes for one tile, or `none` when
the tile is discarded because name or price is empty after trimming
(lines 178-180). -/
def tileRecord (join : Url → String → Option Url) (page_url : Url)
    (te : Node × List Node) : Option Product :=
  if fieldText name_selector te.1 te.2 = "" ∨ fieldText price_selector te.1 te.2 = "" then
    none
  else
    some { url := productUrlOf join page_url te.1 te.2,
           name := fieldText name_selector te.1 te.2,
           price := fieldText price_selector te.1 te.2 }

/-- The sequence of product records `extract_products` emits for a parsed
document, in tile order. -/
def extract_records (join : Url → String → Option Url) (document : Node)
    (page_url : Url) : List Product :=
  (selectDoc product_selector [] document).filterMap (tileRecord join page_url)

/-- `writer.serialize(Product { url, name, price })`: serde writes the
fields in declaration order as one CSV row. -/
def serializeRow (p : Product) : List String :=
  [p.url, p.name, p.price]

/-- The `for product in document.select(&product_selector)` loop of
`extract_products` (lines 161-196), threading the CSV writer state (the
list of rows written so far). -/
def extractLoop (join : Url → String → Option Url) (page_url : Url) :
    List (Node × List Node) → List (List String) → List (List String)
  | [], writer => writer
  | te :: rest, writer =>
    if fieldText name_selector te.1 te.2 = "" ∨ fieldText price_selector te.1 te.2 = "" then
      extractLoop join page_url rest writer
    else
      extractLoop join page_url rest
        (writer ++ [serializeRow
          { url := productUrlOf join page_url te.1 te.2,
            name := fieldText name_selector te.1 te.2,
            price := fieldText price_selector te.1 te.2 }])

/-- `extract_products(html, page_url, writer)` (lines 137-199): parse the
body (`Html::parse_document` is the infallible best-effort html5ever
parser, modelled by the total oracle `parse`), select the tiles, and write
one row per tile that has a non-empty name and price.  The writer is the
list of rows written so far; the `Result` return carries no error in this
model because the only fallible operation in the source is the CSV I/O of
`writer.serialize`. -/
def extract_products (parse : String → Node) (join : Url → String → Option Url)
    (html : String) (page_url : Url) (writer : List (List String)) : List (List String) :=
  extractLoop join page_url (selectDoc product_selector [] (parse html)) writer

/-! ## The crawl driver (`crawl_and_extract`, lines 52-133) -/

/-- The external collaborators of the crawl loop, as oracles:
`fetch` is `client.get(url).send().await` followed by `.text().await`
(either step failing yields `Except.error` with the message detail);
`parse` is `Html::parse_document` (total: html5ever never fails, it
error-corrects malformed markup); `join` is `Url::join(..).ok()`. -/
structure Env where
  fetch : Url → Except String String
  parse : String → Node
  join : Url → String → Option Url

/-- The mutable state of `crawl_and_extract`: the frontier `queue`, the
`visited` set of URL strings (newest first; inserts happen only after a
negative membership test, so it is a faithful model of the `HashSet`),
the CSV `writer` rows written so far, and two observation traces: the URL
strings actually passed to the fetcher (`fetched`, newest first) and the
console lines printed (`logs`, oldest first). -/
structure CrawlState where
  queue : List Url
  visited : List String
  writer : List (List String)
  fetched : List String
  logs : List String
  flushed : Bool
deriving DecidableEq, Repr

/-- `println!("\n=== Fetching ({}/{}) ===", visited.len() + 1, max_pages)`. -/
def fetchingMsg (visitedCount max_pages : Nat) : String :=
  "\n=== Fetching (" ++ toString (visitedCount + 1) ++ "/" ++ toString max_pages ++ ") ==="

/-- `eprintln!("Request failed for {url}: {e}")` (also standing for the
`Failed to read body` message: both failure arms log and `continue`). -/
def requestFailedMsg (u e : String) : String :=
  "Request failed for " ++ u ++ ": " ++ e

/-- `println!("\nReached max pages limit ({}) - stopping crawl.", max_pages)`. -/
def maxPagesMsg (max_pages : Nat) : String :=
  "\nReached max pages limit (" ++ toString max_pages ++ ") - stopping crawl."

/-- `println!("\nCrawl complete. Total pages visited: {}", visited.len())`. -/
def completeMsg (n : Nat) : String :=
  "\nCrawl complete. Total pages visited: " ++ toString n

/-- `println!("Saved extracted products to products.csv")`. -/
def savedMsg : String :=
  "Saved extracted products to products.csv"

/-- The scope test of link discovery (lines 109-117): with
`Some(domain) = start_domain`, skip when
`next_url.domain().map(|d| d != domain).unwrap_or(true)`; with no start
domain the test is skipped and nothing is filtered. -/
def outOfScope (start_domain : Option String) (next_url : Url) : Bool :=
  match start_domain with
  | some domain => (next_url.domain.map (fun d => d != domain)).getD true
  | none => false

/-- The `href` attributes of the `a` elements of the page, in document
order (`document.select(&link_selector)`, line 106; anchors without an
`href` yield `none` and are skipped by the `if let` in the loop). -/
def anchorHrefs (document : Node) : List (Option String) :=
  (selectDoc link_selector [] document).map (fun p => attrVal (attrsOf p.1) "href")

/-- The link-discovery loop (lines 106-125): for each anchor having an
`href`, resolve it against the current page URL; on success, drop it if
out of scope or already visited, otherwise push it onto the back of the
queue. -/
def discoverLinks (join : Url → String → Option Url) (page_url : Url)
    (start_domain : Option String) (visited : List String) :
    List (Option String) → List Url → List Url
  | [], queue => queue
  | none :: hrefs, queue =>
    discoverLinks join page_url start_domain visited hrefs queue
  | some href :: hrefs, queue =>
    match join page_url href with
    | none => discoverLinks join page_url start_domain visited hrefs queue
    | some next_url =>
      if outOfScope start_domain next_url then
        discoverLinks join page_url start_domain visited hrefs queue
      else if next_url.as_str ∈ visited then
        discoverLinks join page_url start_domain visited hrefs queue
      else
        discoverLinks join page_url start_domain visited hrefs (queue ++ [next_url])

/-- Result of one pass through the `while let` body: either the loop is
over (`done`: empty queue, or the max-pages break) or it continues with
the next state. -/
inductive StepRes where
  | done (st : CrawlState)
  | next (st : CrawlState)
deriving DecidableEq, Repr

/-- The state carried by a step result. -/
def stepState : StepRes → CrawlState
  | StepRes.done st => st
  | StepRes.next st => st

/-- One iteration of the crawl loop (lines 70-126): pop the front URL;
break on the page cap; skip already-visited URLs; otherwise log, mark
visited *before* fetching, fetch (a failure logs and continues), extract
products into the writer, and enqueue discovered in-scope links. -/
def crawlStep (env : Env) (start_domain : Option String) (max_pages : Nat)
    (st : CrawlState) : StepRes :=
  match st.queue with
  | [] => StepRes.done st
  | url :: rest =>
    if max_pages ≤ st.visited.length then
      StepRes.done { st with queue := rest, logs := st.logs ++ [maxPagesMsg max_pages] }
    else if url.as_str ∈ st.visited then
      StepRes.next { st with queue := rest }
    else
      match env.fetch url with
      | Except.error e =>
        StepRes.next { st with
          queue := rest,
          visited := url.as_str :: st.visited,
          fetched := url.as_str :: st.fetched,
          logs := st.logs ++ [fetchingMsg st.visited.length max_pages, url.as_str,
                              requestFailedMsg url.as_str e] }
      | Except.ok body =>
        StepRes.next { st with
          queue := discoverLinks env.join url start_domain (url.as_str :: st.visited)
                     (anchorHrefs (env.parse body)) rest,
          visited := url.as_str :: st.visited,
          writer := extract_products env.parse env.join body url st.writer,
          fetched := url.as_str :: st.fetched,
          logs := st.logs ++ [fetchingMsg st.visited.length max_pages, url.as_str] }

/-- The `while let Some(url) = queue.pop_front()` loop, iterated with
fuel; `none` means the loop has not finished within the given fuel. -/
def crawlLoop (env : Env) (start_domain : Option String) (max_pages : Nat) :
    Nat → CrawlState → Option CrawlState
  | 0, _ => none
  | fuel + 1, st =>
    match crawlStep env start_domain max_pages st with
    | StepRes.done st2 => some st2
    | StepRes.next st2 => crawlLoop env start_domain max_pages fuel st2

/-- `crawl_and_extract(start_url, max_pages)` (lines 52-133): compute the
start domain once, create the CSV file with its header row, seed the queue
with the start URL, run the loop, then flush the writer and print the
completion summary.  The Rust function's value on success is `Ok(())`,
modelled by the `Unit` component of the result; `none` models only fuel
exhaustion. -/
def crawl_and_extract (env : Env) (start_url : Url) (max_pages : Nat)
    (fuel : Nat) : Option (Unit × CrawlState) :=
  let start_domain := start_url.domain
  let st0 : CrawlState :=
    { queue := [start_url], visited := [], writer := [["url", "name", "price"]],
      fetched := [], logs := [], flushed := false }
  match crawlLoop env start_domain max_pages fuel st0 with
  | none => none
  | some st =>
    some ((), { st with
      flushed := true,
      logs := st.logs ++ [completeMsg st.visited.length, savedMsg] })

/-! ## Characterisations used to state the extraction claims -/

/-- The first sub-element of the tile *in document order* that matches any
alternative of the selector list, its text concatenated and trimmed (empty
when nothing matches).  This is the document-order-union reading of the
fallback "chain". -/
def docOrderField (sel : Selector) (tile : Node) (ancs : List Node) : String :=
  (((descendantsList (tile :: ancs) (childrenOf tile)).find?
      (fun p => matchesSelector sel p.1 p.2)).map
    (fun p => trimStr (textOf p.1))).getD ""

/-- Modelled from the spec's words (section 4.2, step 3), for comparison
with the code: run the matchers of the chain *in chain order* and take the
first matcher that yields at least one matching sub-element, then the text
of that matcher's first sub-element, trimmed.  The code does not implement
this: it passes the whole comma list to one `select` call. -/
def specChainFieldText (chain : Selector) (tile : Node) (ancs : List Node) : String :=
  ((chain.findSome? (fun c => (selectIn [c] tile ancs).head?)).map
    (fun p => trimStr (textOf p.1))).getD ""

/-! ## Concrete instances used by counterexamples and witnesses -/

def urlW : Url := { as_str := "https://w.example.com/", domain := some "w.example.com" }

/-- An environment whose fetcher always fails. -/
def envW : Env :=
  { fetch := fun _ => Except.error "net down",
    parse := fun _ => Node.text "",
    join := fun _ _ => none }

/-- The final state of `crawl_and_extract envW urlW 3 2`: one page
visited, its fetch failed. -/
def stW : CrawlState :=
  { queue := [], visited := ["https://w.example.com/"],
    writer := [["url", "name", "price"]],
    fetched := ["https://w.example.com/"],
    logs := [fetchingMsg 0 3, "https://w.example.com/",
             requestFailedMsg "https://w.example.com/" "net down",
             completeMsg 1, savedMsg],
    flushed := true }

def url4n : Url := { as_str := "https://w.example.com/n", domain := some "w.example.com" }

/-- An environment whose start page carries one same-domain link. -/
def env4b : Env :=
  { fetch := fun u => if u.as_str = "https://w.example.com/" then Except.ok "b"
                      else Except.error "x",
    parse := fun _ => Node.elem "a" [("href", "n")] [],
    join := fun _ href => if href = "n" then some url4n else none }

/-- The final state of `crawl_and_extract env4b urlW 3 4`: two pages
visited. -/
def stC4b : CrawlState :=
  { queue := [], visited := ["https://w.example.com/n", "https://w.example.com/"],
    writer := [["url", "name", "price"]],
    fetched := ["https://w.example.com/n", "https://w.example.com/"],
    logs := [fetchingMsg 0 3, "https://w.example.com/",
             fetchingMsg 1 3, "https://w.example.com/n",
             requestFailedMsg "https://w.example.com/n" "x",
             completeMsg 2, savedMsg],
    flushed := true }

/-- A valid absolute start URL whose host is an IP address, so
`Url::domain()` is `None`. -/
def startC1 : Url := { as_str := "http://127.0.0.1/", domain := none }

/-- A resolved URL with no domain (a `mailto:` link). -/
def mailtoC1 : Url := { as_str := "mailto:x@y", domain := none }

/-- An environment whose start page carries a `mailto:` anchor. -/
def envC1 : Env :=
  { fetch := fun u => if u.as_str = "http://127.0.0.1/" then Except.ok "page"
                      else Except.error "net",
    parse := fun _ => Node.elem "a" [("href", "mailto:x@y")] [],
    join := fun _ href => if href = "mailto:x@y" then some mailtoC1 else none }

/-- The final state of `crawl_and_extract envC1 startC1 5 3`: the
domain-less `mailto:` URL was enqueued and then fetched. -/
def stC1 : CrawlState :=
  { queue := [], visited := ["mailto:x@y", "http://127.0.0.1/"],
    writer := [["url", "name", "price"]],
    fetched := ["mailto:x@y", "http://127.0.0.1/"],
    logs := [fetchingMsg 0 5, "http://127.0.0.1/",
             fetchingMsg 1 5, "mailto:x@y",
             requestFailedMsg "mailto:x@y" "net",
             completeMsg 2, savedMsg],
    flushed := true }

/-- A product tile in which the sub-element matched by the *second* name
matcher (`a[aria-label]`) precedes, in document order, the sub-element
matched by the *first* name matcher
(`[data-automation-id='product-title']`). -/
def c5Tile : Node :=
  Node.elem "div" [("data-item-id", "1")]
    [ Node.elem "a" [("aria-label", "lbl")] [Node.text "AnchorName"],
      Node.elem "div" [("data-automation-id", "product-title")] [Node.text "RealTitle"],
      Node.elem "span" [("aria-hidden", "true")] [Node.text "9.99"] ]

def url6 : Url := { as_str := "https://shop.example.com", domain := some "shop.example.com" }

/-- A toy join oracle: plain concatenation. -/
def join6 : Url → String → Option Url :=
  fun u href => some { as_str := u.as_str ++ href, domain := u.domain }

/-- A page that is a single complete product tile. -/
def doc6 : Node :=
  Node.elem "div" [("data-item-id", "7")]
    [ Node.elem "div" [("data-automation-id", "product-title")] [Node.text " Widget "],
      Node.elem "span" [("aria-hidden", "true")] [Node.text "$5"],
      Node.elem "a" [("href", "/w")] [Node.text "link"] ]

def urlD : Url := { as_str := "https://d.example.com/a", domain := some "d.example.com" }

/-- A join oracle resolving the single href used by the C1 witness. -/
def joinD : Url → String → Option Url :=
  fun _ href => if href = "a" then some urlD else none

/-- A crawl state about to fetch `urlW`. -/
def st7 : CrawlState :=
  { queue := [urlW], visited := [], writer := [["url", "name", "price"]],
    fetched := [], logs := [], flushed := false }

/-! ## Helper lemmas -/

theorem head_filter_eq_find {α : Type} (p : α → Bool) (l : List α) :
    (l.filter p).head? = l.find? p := by
  induction l with
  | nil => rfl
  | cons a l ih =>
    by_cases h : p a
    · simp [List.filter_cons, List.find?_cons, h]
    · simp [List.filter_cons, List.find?_cons, h, ih]

/-- The name / price expression of the source equals the first document-order
match over the union of the selector list's alternatives. -/
theorem fieldText_eq_docOrderField (sel : Selector) (tile : Node) (ancs : List Node) :
    fieldText sel tile ancs = docOrderField sel tile ancs := by
  unfold fieldText docOrderField selectIn
  rw [head_filter_eq_find]
  cases (descendantsList (tile :: ancs) (childrenOf tile)).find?
      (fun p => matchesSelector sel p.1 p.2) with
  | none => rfl
  | some q => rfl

/-- A record emitted for a tile has non-empty name and price. -/
theorem tileRecord_wf {join : Url → String → Option Url} {page_url : Url}
    {te : Node × List Node} {p : Product}
    (h : tileRecord join page_url te = some p) :
    p.name ≠ "" ∧ p.price ≠ "" := by
  unfold tileRecord at h
  split at h
  · exact absurd h (by simp)
  · next hc =>
    push_neg at hc
    cases h
    exact ⟨hc.1, hc.2⟩

/-- The writer-threading loop of `extract_products` appends exactly the
serialized emitted records to whatever the writer already holds. -/
theorem extractLoop_append (join : Url → String → Option Url) (page_url : Url) :
    ∀ (ts : List (Node × List Node)) (writer : List (List String)),
      extractLoop join page_url ts writer =
        writer ++ (ts.filterMap (tileRecord join page_url)).map serializeRow := by
  intro ts
  induction ts with
  | nil => intro w; simp [extractLoop]
  | cons te rest ih =>
    intro w
    by_cases h : fieldText name_selector te.1 te.2 = "" ∨ fieldText price_selector te.1 te.2 = ""
    · rw [extractLoop, if_pos h, ih]
      simp [List.filterMap_cons, tileRecord, if_pos h]
    · rw [extractLoop, if_neg h, ih]
      simp [List.filterMap_cons, tileRecord, if_neg h, serializeRow, List.append_assoc]

/-- One crawl step never pushes the visited count past `max_pages`:
the insertion happens only under the negated cap test. -/
theorem stepState_visited_le (env : Env) (sd : Option String) (mp : Nat)
    (st : CrawlState) (h : st.visited.length ≤ mp) :
    (stepState (crawlStep env sd mp st)).visited.length ≤ mp := by
  obtain ⟨q, v, w, fe, lg, fl⟩ := st
  simp only at h
  cases q with
  | nil => exact h
  | cons url rest =>
    by_cases hcap : mp ≤ v.length
    · simp [crawlStep, stepState, hcap]
      exact h
    · by_cases hv : url.as_str ∈ v
      · simp [crawlStep, stepState, hcap, hv]; exact h
      · cases hf : env.fetch url with
        | error e =>
          simp [crawlStep, stepState, hcap, hv, hf]
          omega
        | ok body =>
          simp [crawlStep, stepState, hcap, hv, hf]
          omega

/-- The visited-cap invariant is preserved through the loop. -/
theorem crawlLoop_visited_le (env : Env) (sd : Option String) (mp : Nat) :
    ∀ (fuel : Nat) (st out : CrawlState), st.visited.length ≤ mp →
      crawlLoop env sd mp fuel st = some out → out.visited.length ≤ mp := by
  intro fuel
  induction fuel with
  | zero => intro st out h hout; simp [crawlLoop] at hout
  | succ f ih =>
    intro st out h hout
    rw [crawlLoop] at hout
    cases hs : crawlStep env sd mp st with
    | done st2 =>
      rw [hs] at hout
      cases hout
      have h2 := stepState_visited_le env sd mp st h
      rwa [hs] at h2
    | next st2 =>
      rw [hs] at hout
      have h2 := stepState_visited_le env sd mp st h
      rw [hs] at h2
      exact ih st2 out h2 hout

/-- One crawl step keeps the fetch trace duplicate-free and inside the
visited set: the URL is inserted into `visited` (and appended to the
trace) only after the membership test failed. -/
theorem stepState_trace (env : Env) (sd : Option String) (mp : Nat)
    (st : CrawlState) (h1 : st.fetched.Nodup)
    (h2 : ∀ s ∈ st.fetched, s ∈ st.visited) :
    (stepState (crawlStep env sd mp st)).fetched.Nodup ∧
      ∀ s ∈ (stepState (crawlStep env sd mp st)).fetched,
        s ∈ (stepState (crawlStep env sd mp st)).visited := by
  obtain ⟨q, v, w, fe, lg, fl⟩ := st
  simp only at h1 h2
  cases q with
  | nil => exact ⟨h1, h2⟩
  | cons url rest =>
    by_cases hcap : mp ≤ v.length
    · simp only [crawlStep, stepState, if_pos hcap]
      exact ⟨h1, h2⟩
    · by_cases hv : url.as_str ∈ v
      · simp only [crawlStep, stepState, if_neg hcap, if_pos hv]
        exact ⟨h1, h2⟩
      · have hnotfe : url.as_str ∉ fe := fun hm => hv (h2 _ hm)
        have hnodup : (url.as_str :: fe).Nodup := List.nodup_cons.mpr ⟨hnotfe, h1⟩
        have hsub : ∀ s ∈ url.as_str :: fe, s ∈ url.as_str :: v := by
          intro s hs
          rcases List.mem_cons.mp hs with h | h
          · exact h ▸ List.mem_cons_self _ _
          · exact List.mem_cons_of_mem _ (h2 _ h)
        cases hf : env.fetch url with
        | error e =>
          simp only [crawlStep, stepState, if_neg hcap, if_neg hv, hf]
          exact ⟨hnodup, hsub⟩
        | ok body =>
          simp only [crawlStep, stepState, if_neg hcap, if_neg hv, hf]
          exact ⟨hnodup, hsub⟩

/-- The fetch-trace invariant is preserved through the loop. -/
theorem crawlLoop_trace (env : Env) (sd : Option String) (mp : Nat) :
    ∀ (fuel : Nat) (st out : CrawlState), st.fetched.Nodup →
      (∀ s ∈ st.fetched, s ∈ st.visited) →
      crawlLoop env sd mp fuel st = some out →
      out.fetched.Nodup ∧ ∀ s ∈ out.fetched, s ∈ out.visited := by
  intro fuel
  induction fuel with
  | zero => intro st out _ _ hout; simp [crawlLoop] at hout
  | succ f ih =>
    intro st out h1 h2 hout
    rw [crawlLoop] at hout
    cases hs : crawlStep env sd mp st with
    | done st2 =>
      rw [hs] at hout
      cases hout
      have h3 := stepState_trace env sd mp st h1 h2
      rwa [hs] at h3
    | next st2 =>
      rw [hs] at hout
      have h3 := stepState_trace env sd mp st h1 h2
      rw [hs] at h3
      exact ih st2 out h3.1 h3.2 hout

/-- A false scope test means the resolved URL's domain is exactly the
start domain. -/
theorem outOfScope_eq_false {d : String} {u : Url}
    (h : outOfScope (some d) u = false) : u.domain = some d := by
  unfold outOfScope at h
  cases hd : u.domain with
  | none => simp [hd] at h
  | some d2 =>
    simp [hd] at h
    simp [hd, h]

/-- Everything the discovery loop adds to the queue came from an anchor
href that resolved, passed the scope test, and was not yet visited. -/
theorem discoverLinks_mem (join : Url → String → Option Url) (page_url : Url)
    (sd : Option String) (visited : List String) :
    ∀ (hrefs : List (Option String)) (queue : List Url) (u : Url),
      u ∈ discoverLinks join page_url sd visited hrefs queue →
      u ∈ queue ∨ ∃ href, some href ∈ hrefs ∧ join page_url href = some u ∧
        outOfScope sd u = false ∧ u.as_str ∉ visited := by
  intro hrefs
  induction hrefs with
  | nil => intro q u h; exact Or.inl h
  | cons oh rest ih =>
    intro q u h
    cases oh with
    | none =>
      rw [discoverLinks] at h
      rcases ih q u h with h' | ⟨href, hm, hrest⟩
      · exact Or.inl h'
      · exact Or.inr ⟨href, List.mem_cons_of_mem _ hm, hrest⟩
    | some href0 =>
      rw [discoverLinks] at h
      cases hj : join page_url href0 with
      | none =>
        simp only [hj] at h
        rcases ih q u h with h' | ⟨href, hm, hrest⟩
        · exact Or.inl h'
        · exact Or.inr ⟨href, List.mem_cons_of_mem _ hm, hrest⟩
      | some next_url =>
        simp only [hj] at h
        by_cases ho : outOfScope sd next_url = true
        · rw [if_pos ho] at h
          rcases ih q u h with h' | ⟨href, hm, hrest⟩
          · exact Or.inl h'
          · exact Or.inr ⟨href, List.mem_cons_of_mem _ hm, hrest⟩
        · rw [if_neg ho] at h
          by_cases hvn : next_url.as_str ∈ visited
          · rw [if_pos hvn] at h
            rcases ih q u h with h' | ⟨href, hm, hrest⟩
            · exact Or.inl h'
            · exact Or.inr ⟨href, List.mem_cons_of_mem _ hm, hrest⟩
          · rw [if_neg hvn] at h
            rcases ih (q ++ [next_url]) u h with h' | ⟨href, hm, hrest⟩
            · rcases List.mem_append.mp h' with hq | hn
              · exact Or.inl hq
              · have he : u = next_url := List.mem_singleton.mp hn
                subst he
                exact Or.inr ⟨href0, List.mem_cons_self _ _, hj, by simpa using ho, hvn⟩
            · exact Or.inr ⟨href, List.mem_cons_of_mem _ hm, hrest⟩

/-! ## The claims -/

/-- Claim C1, amended: when the start URL has a domain `d` (the code's
`start_domain` is `Some`), link discovery enqueues a URL only if it was
already in the queue or some anchor's href resolved against the current
page URL to that URL and its domain equals `d`; in particular resolved
URLs with a different domain or with no domain are never enqueued.  (The
unamended claim fails when the start URL has no domain: see the
counterexample.) -/
theorem claim_c1_domain_scope (join : Url → String → Option Url) (page_url : Url)
    (d : String) (visited : List String) (hrefs : List (Option String))
    (queue : List Url) (u : Url)
    (h : u ∈ discoverLinks join page_url (some d) visited hrefs queue) :
    u ∈ queue ∨ ∃ href, some href ∈ hrefs ∧ join page_url href = some u ∧
      u.domain = some d := by
  rcases discoverLinks_mem join page_url (some d) visited hrefs queue u h with
    h' | ⟨href, hm, hj, ho, _⟩
  · exact Or.inl h'
  · exact Or.inr ⟨href, hm, hj, outOfScope_eq_false ho⟩

/-- Claim C1, counterexample to the unamended statement: starting from the
valid absolute URL `http://127.0.0.1/`, whose `domain()` is `None`, the
code skips the scope filter entirely, so the resolved `mailto:x@y` URL —
which has no domain — is enqueued and indeed subsequently fetched
(it appears in the fetch trace of the finished run). -/
theorem claim_c1_counterexample :
    crawl_and_extract envC1 startC1 5 3 = some ((), stC1) ∧
      startC1.domain = none ∧ mailtoC1.domain = none ∧
      mailtoC1.as_str ∈ stC1.fetched := by
  refine ⟨rfl, rfl, rfl, ?_⟩
  decide

/-- Claim C1 witness: a concrete discovery pass with start domain
`d.example.com` over one anchor `a` resolving to an in-domain URL. -/
theorem claim_c1_witness :
    urlD ∈ ([] : List Url) ∨
      ∃ href, some href ∈ [some "a"] ∧ joinD urlD href = some urlD ∧
        urlD.domain = some "d.example.com" :=
  claim_c1_domain_scope joinD urlD "d.example.com" [] [some "a"] [] urlD (by decide)

/-- Claim C2 (confirmed): whenever the crawl loop terminates, the visited
set holds at most `max_pages` URLs — the cap is checked before each fetch
and the insertion happens only under the negated cap test. -/
theorem claim_c2_visited_cap (env : Env) (start_url : Url) (max_pages fuel : Nat)
    (r : Unit) (st : CrawlState)
    (h : crawl_and_extract env start_url max_pages fuel = some (r, st)) :
    st.visited.length ≤ max_pages := by
  simp only [crawl_and_extract] at h
  cases hl : crawlLoop env start_url.domain max_pages fuel
      { queue := [start_url], visited := [], writer := [["url", "name", "price"]],
        fetched := [], logs := [], flushed := false } with
  | none => rw [hl] at h; cases h
  | some st2 =>
    rw [hl] at h
    cases h
    have h2 := crawlLoop_visited_le env start_url.domain max_pages fuel _ st2
      (by simp) hl
    simpa using h2

/-- Claim C2 witness: the concrete always-failing-fetch run visits one
page under the cap of 3. -/
theorem claim_c2_witness : stW.visited.length ≤ 3 :=
  claim_c2_visited_cap envW urlW 3 2 () stW rfl

/-- Claim C3 (confirmed): in a terminated crawl, the trace of URL strings
actually passed to the fetcher has no duplicate — a dequeued URL already
in `visited` is skipped without fetching, and each fetched URL string is
in the visited set (it is inserted before the fetch is issued). -/
theorem claim_c3_fetch_once (env : Env) (start_url : Url) (max_pages fuel : Nat)
    (r : Unit) (st : CrawlState)
    (h : crawl_and_extract env start_url max_pages fuel = some (r, st)) :
    st.fetched.Nodup ∧ ∀ s ∈ st.fetched, s ∈ st.visited := by
  simp only [crawl_and_extract] at h
  cases hl : crawlLoop env start_url.domain max_pages fuel
      { queue := [start_url], visited := [], writer := [["url", "name", "price"]],
        fetched := [], logs := [], flushed := false } with
  | none => rw [hl] at h; cases h
  | some st2 =>
    rw [hl] at h
    cases h
    have h2 := crawlLoop_trace env start_url.domain max_pages fuel _ st2
      (by simp) (by simp) hl
    simpa using h2

/-- Claim C3 witness: the concrete run's fetch trace. -/
theorem claim_c3_witness : stW.fetched.Nodup ∧ ∀ s ∈ stW.fetched, s ∈ stW.visited :=
  claim_c3_fetch_once envW urlW 3 2 () stW rfl

/-- Claim C4, amended: every successful crawl run flushes the sink,
*prints* the count of pages visited in its completion message, and
returns success — the `Result` value itself is the unit value `Ok(())`,
not the page count.  (The unamended claim, that the count is the result
value, fails: see the counterexample.) -/
theorem claim_c4_flush_and_report (env : Env) (start_url : Url)
    (max_pages fuel : Nat) (r : Unit) (st : CrawlState)
    (h : crawl_and_extract env start_url max_pages fuel = some (r, st)) :
    st.flushed = true ∧ completeMsg st.visited.length ∈ st.logs ∧ r = () := by
  simp only [crawl_and_extract] at h
  cases hl : crawlLoop env start_url.domain max_pages fuel
      { queue := [start_url], visited := [], writer := [["url", "name", "price"]],
        fetched := [], logs := [], flushed := false } with
  | none => rw [hl] at h; cases h
  | some st2 =>
    rw [hl] at h
    cases h
    refine ⟨rfl, ?_, rfl⟩
    simp

/-- Claim C4, counterexample to the unamended statement: two successful
runs whose visited counts differ (1 and 2) both return the same result
value `()` — the result value cannot be the count of pages visited; the
count only appears in the console summary. -/
theorem claim_c4_counterexample :
    crawl_and_extract envW urlW 3 2 = some ((), stW) ∧
      crawl_and_extract env4b urlW 3 4 = some ((), stC4b) ∧
      stW.visited.length = 1 ∧ stC4b.visited.length = 2 :=
  ⟨rfl, rfl, rfl, rfl⟩

/-- Claim C4 witness: the concrete always-failing-fetch run flushed and
logged its count. -/
theorem claim_c4_witness :
    stW.flushed = true ∧ completeMsg stW.visited.length ∈ stW.logs ∧ () = () :=
  claim_c4_flush_and_report envW urlW 3 2 () stW rfl

/-- Claim C5, amended: for every product tile, the name field (and
separately the price field) is the text — concatenated and trimmed — of
the *first sub-element in document order* that matches *any* matcher of
the corresponding selector list; document order over the union of the
matchers, not chain order, decides which sub-element wins.  (The
unamended chain-order claim fails: see the counterexample.) -/
theorem claim_c5_doc_order (doc : Node) (tile : Node) (ancs : List Node)
    (_h : (tile, ancs) ∈ selectDoc product_selector [] doc) :
    fieldText name_selector tile ancs = docOrderField name_selector tile ancs ∧
      fieldText price_selector tile ancs = docOrderField price_selector tile ancs :=
  ⟨fieldText_eq_docOrderField name_selector tile ancs,
   fieldText_eq_docOrderField price_selector tile ancs⟩

/-- Claim C5, counterexample to the chain-order statement: in `c5Tile` the
element matched by the second name matcher (`a[aria-label]`, text
`AnchorName`) precedes in document order the element matched by the first
name matcher (`[data-automation-id='product-title']`, text `RealTitle`).
The code extracts `AnchorName`; the spec's chain-order semantics
(`specChainFieldText`) would extract `RealTitle`. -/
theorem claim_c5_counterexample :
    fieldText name_selector c5Tile [] = "AnchorName" ∧
      specChainFieldText name_selector c5Tile [] = "RealTitle" ∧
      fieldText name_selector c5Tile [] ≠ specChainFieldText name_selector c5Tile [] := by
  refine ⟨rfl, rfl, ?_⟩
  decide

/-- Claim C5 witness: the characterisation applied to the concrete tile
`c5Tile` of its own one-tile document. -/
theorem claim_c5_witness :
    fieldText name_selector c5Tile [] = docOrderField name_selector c5Tile [] ∧
      fieldText price_selector c5Tile [] = docOrderField price_selector c5Tile [] :=
  claim_c5_doc_order c5Tile c5Tile []
    (by exact List.mem_singleton.mpr rfl)

/-- Claim C6 (confirmed): every record emitted by extraction has a
non-empty name and a non-empty price after trimming — a tile with an
empty name or price is discarded and produces no record. -/
theorem claim_c6_nonempty_fields (join : Url → String → Option Url)
    (document : Node) (page_url : Url) (p : Product)
    (h : p ∈ extract_records join document page_url) :
    p.name ≠ "" ∧ p.price ≠ "" := by
  unfold extract_records at h
  rw [List.mem_filterMap] at h
  obtain ⟨te, _, hte⟩ := h
  exact tileRecord_wf hte

/-- Claim C6 witness: the record extracted from the concrete one-tile
page `doc6`. -/
theorem claim_c6_witness :
    ({ url := "https://shop.example.com/w", name := "Widget", price := "$5" } : Product).name ≠ "" ∧
      ({ url := "https://shop.example.com/w", name := "Widget", price := "$5" } : Product).price ≠ "" :=
  claim_c6_nonempty_fields join6 doc6 url6 _ (by decide)

/-- Claim C7 (confirmed): a dequeued, unvisited URL whose fetch fails does
not abort the crawl: the step logs the error and continues with the rest
of the queue (`StepRes.next`), no extraction or link discovery runs — the
writer is unchanged and the queue is exactly the remainder of the pop —
while the URL is still marked visited and traced as fetched. -/
theorem claim_c7_fetch_failure (env : Env) (sd : Option String) (mp : Nat)
    (st : CrawlState) (url : Url) (rest : List Url) (e : String)
    (hq : st.queue = url :: rest) (hcap : ¬ mp ≤ st.visited.length)
    (hv : url.as_str ∉ st.visited) (hf : env.fetch url = Except.error e) :
    crawlStep env sd mp st = StepRes.next { st with
      queue := rest,
      visited := url.as_str :: st.visited,
      fetched := url.as_str :: st.fetched,
      logs := st.logs ++ [fetchingMsg st.visited.length mp, url.as_str,
                          requestFailedMsg url.as_str e] } := by
  unfold crawlStep
  rw [hq]
  simp only [if_neg hcap, if_neg hv, hf]

/-- Claim C7 witness: the concrete failing fetch of `urlW` from the state
`st7`. -/
theorem claim_c7_witness :
    crawlStep envW (some "w.example.com") 3 st7 = StepRes.next { st7 with
      queue := [],
      visited := [urlW.as_str],
      fetched := [urlW.as_str],
      logs := [fetchingMsg 0 3, urlW.as_str, requestFailedMsg urlW.as_str "net down"] } :=
  claim_c7_fetch_failure envW (some "w.example.com") 3 st7 urlW [] "net down"
    rfl (by decide) (by decide) rfl

/-- Claim C8 (confirmed): extraction is a total function of the parsed
document — for every body string and every behaviour of the best-effort
parser (including trees arising from unbalanced or invalid markup) it
returns normally, and every record it returns is well-formed (non-empty
name and price).  Totality holds by construction: every function on the
extraction path is fully defined for every tree. -/
theorem claim_c8_total_extraction (parse : String → Node)
    (join : Url → String → Option Url) (html : String) (page_url : Url) :
    (extract_records join (parse html) page_url).all
      (fun p => !(p.name == "") && !(p.price == "")) = true := by
  rw [List.all_eq_true]
  intro p hp
  unfold extract_records at hp
  rw [List.mem_filterMap] at hp
  obtain ⟨te, _, hte⟩ := hp
  obtain ⟨h1, h2⟩ := tileRecord_wf hte
  simp [h1, h2]

/-- Claim C9 (confirmed): extraction is pure and deterministic — the rows
`extract_products` writes are exactly the prior writer state followed by
the serialized records computed from the body and page URL alone, so two
runs on the same body and URL append identical record sequences
irrespective of any other state. -/
theorem claim_c9_pure_extraction (parse : String → Node)
    (join : Url → String → Option Url) (html : String) (page_url : Url)
    (writer : List (List String)) :
    extract_products parse join html page_url writer =
      writer ++ (extract_records join (parse html) page_url).map serializeRow :=
  extractLoop_append join page_url (selectDoc product_selector [] (parse html)) writer

/-- Claim C10 (confirmed): with `max_pages = 0` and any start URL, the
run terminates successfully after the very first cap check: nothing is
fetched, nothing is visited, and the writer holds exactly the header row
`url,name,price`. -/
theorem claim_c10_zero_cap (env : Env) (start_url : Url) (fuel : Nat)
    (h : 1 ≤ fuel) :
    crawl_and_extract env start_url 0 fuel =
      some ((), { queue := [], visited := [],
                  writer := [["url", "name", "price"]], fetched := [],
                  logs := [maxPagesMsg 0, completeMsg 0, savedMsg],
                  flushed := true }) := by
  cases fuel with
  | zero => omega
  | succ f => rfl

/-- Claim C10 witness: the concrete zero-cap run. -/
theorem claim_c10_witness :
    crawl_and_extract envW urlW 0 1 =
      some ((), { queue := [], visited := [],
                  writer := [["url", "name", "price"]], fetched := [],
                  logs := [maxPagesMsg 0, completeMsg 0, savedMsg],
                  flushed := true }) :=
  claim_c10_zero_cap envW urlW 1 (by decide)

end Crawler
